import Mathlib

/-!
Verification development for the free2fetch download pipeline.

Shallow embedding of the Python sources under apps/core/services
(m3u8_service.py, download_engine.py, udemy_service.py, utils.py) and
apps/downloads/tasks.py.  Network and filesystem effects are modelled by
explicit oracles (functions passed as parameters) and event traces; the
functions themselves are translated line by line from the Python source.
Where a Python module defines the same name twice (tasks.py and
download_engine.py both do), the later definition shadows the earlier one,
so the embedding follows the later definition — the one the program runs.

One name-resolution fact shapes the planner embedding: tasks.py comments
out its only import of the `Utils` helper class (line 22), so at run time
the name is unbound and every `Utils.…` access raises `NameError`.
Definitions suffixed `_operative` model the module as CPython executes it;
the unsuffixed planner definitions model the same statements with `Utils`
bound to apps/core/services/utils.py — the binding the commented-out import
names — i.e. the evident intended semantics of the code behind the raise.
-/

namespace Free2Fetch

/-! ## Python string primitives -/

/-- Python `str.strip()` whitespace set (the ASCII part, which is all the
sources ever hit). -/
def pyIsSpace (c : Char) : Bool :=
  c == ' ' || c == '\t' || c == '\n' || c == '\r' || c == '\x0b' || c == '\x0c'

/-- Drop characters satisfying `p` from both ends of a character list. -/
def stripCharsBy (p : Char → Bool) (cs : List Char) : List Char :=
  ((cs.dropWhile p).reverse.dropWhile p).reverse

/-- Python `str.strip()` with no argument. -/
def pyStrip (s : String) : String :=
  ⟨stripCharsBy pyIsSpace s.data⟩

/-- Python `str.strip('. ')`: strip any mix of dots and spaces from both ends. -/
def stripDotSpace (s : String) : String :=
  ⟨stripCharsBy (fun c => c == '.' || c == ' ') s.data⟩

/-- Python `str.lower()` (ASCII case folding, which is all the sources use). -/
def pyLower (s : String) : String :=
  ⟨s.data.map Char.toLower⟩

/-- Does `needle` occur at the head of `hay`? -/
def headMatches : List Char → List Char → Bool
  | [], _ => true
  | _ :: _, [] => false
  | a :: as, b :: bs => a == b && headMatches as bs

/-- Python `needle in hay` substring containment. -/
def containsSub (needle hay : List Char) : Bool :=
  match hay with
  | [] => headMatches needle []
  | _ :: rest => headMatches needle hay || containsSub needle rest

/-- Substring containment on strings (Python `sub in s`). -/
def strContains (s sub : String) : Bool :=
  containsSub sub.data s.data

/-- Python `s.startswith(pre)`. -/
def strStarts (s pre : String) : Bool :=
  headMatches pre.data s.data

/-- Split accumulator loop for a single-character separator. -/
def splitOnCharAux (sep : Char) : List Char → List Char → List String
  | acc, [] => [⟨acc.reverse⟩]
  | acc, c :: rest =>
    if c = sep then ⟨acc.reverse⟩ :: splitOnCharAux sep [] rest
    else splitOnCharAux sep (c :: acc) rest

/-- Python `s.split(sep)` for a one-character separator (the only shape the
sources use: `'\n'` and `'|'`). -/
def pySplitChar (s : String) (sep : Char) : List String :=
  splitOnCharAux sep [] s.data

/-- Numeric value of a list of decimal digits. -/
def digitsToNat (ds : List Char) : Nat :=
  ds.foldl (fun a c => a * 10 + (c.toNat - '0'.toNat)) 0

/-- Parse a nonempty all-digit character list. -/
def parseDigits (cs : List Char) : Option Nat :=
  if cs ≠ [] ∧ cs.all Char.isDigit then some (digitsToNat cs) else none

/-- Python `int(s)` on a string: optional surrounding whitespace, optional
sign, decimal digits; anything else raises `ValueError`, modelled as `none`.
(Underscore separators are not modelled; no label in the data uses them.) -/
def pyInt (s : String) : Option Int :=
  match stripCharsBy pyIsSpace s.data with
  | '-' :: rest => (parseDigits rest).map (fun n => -(n : Int))
  | '+' :: rest => (parseDigits rest).map (fun n => (n : Int))
  | rest => (parseDigits rest).map (fun n => (n : Int))

/-- Python `os.path.join(path, name)` for the shapes the sources build
(no absolute-name second argument, no trailing separator). -/
def pathJoin (path name : String) : String :=
  if path = "" then name else path ++ "/" ++ name

/-- Python `os.path.basename` for forward-slash paths. -/
def pathBasename (s : String) : String :=
  ⟨(s.data.reverse.takeWhile (fun c => c ≠ '/')).reverse⟩

/-! ## M3U8Service (apps/core/services/m3u8_service.py) -/

/-- One parsed playlist entry: `{quality, resolution, url}` as built by
`M3U8Service._extract_urls_and_qualities`. -/
structure StreamEntry where
  quality : Int
  resolution : String
  url : String
deriving DecidableEq, Repr

/-- Scan a stripped `#EXT-X-STREAM-INF` line for `RESOLUTION=(\d+x\d+)`
(re.search: first position where the whole pattern matches).  Returns the
width digits and height digits of the match. -/
def findResolution : List Char → Option (List Char × List Char)
  | [] => none
  | c :: rest =>
    if headMatches "RESOLUTION=".data (c :: rest) then
      let after := (c :: rest).drop 11
      let d1 := after.takeWhile Char.isDigit
      match after.dropWhile Char.isDigit with
      | 'x' :: r2 =>
        let d2 := r2.takeWhile Char.isDigit
        if d1 ≠ [] ∧ d2 ≠ [] then some (d1, d2) else findResolution rest
      | _ => findResolution rest
    else findResolution rest

/-- Loop body of `_extract_urls_and_qualities`: walks the stripped lines
carrying the current `(resolution, quality)` pair.  The source only emits an
entry on a URL line when both `current_resolution` and `current_quality` are
truthy (so a parsed quality of `0` is skipped, faithfully modelled). -/
def extractLoop : Option (String × Int) → List String → List StreamEntry
  | _, [] => []
  | cur, line :: rest =>
    let l := pyStrip line
    if strStarts l "#EXT-X-STREAM-INF" then
      match findResolution l.data with
      | some (d1, d2) =>
        extractLoop (some (⟨d1 ++ 'x' :: d2⟩, (digitsToNat d2 : Int))) rest
      | none => extractLoop cur rest
    else if strStarts l "http" then
      match cur with
      | some (res, q) =>
        if res ≠ "" ∧ q ≠ 0 then
          ⟨q, res, l⟩ :: extractLoop none rest
        else
          extractLoop cur rest
      | none => extractLoop cur rest
    else
      extractLoop cur rest

/-- M3U8Service._extract_urls_and_qualities. -/
def extract_urls_and_qualities (content : String) : List StreamEntry :=
  extractLoop none (pySplitChar (pyStrip content) '\n')

/-- M3U8Service._is_valid_m3u8_content. -/
def is_valid_m3u8_content (content : String) : Bool :=
  strStarts (pyStrip content) "#EXTM3U"

/-- M3U8Service.load_playlist, with the network fetch abstracted to the
fetched text (`get_file` either returns the text or raises, which the caller
of this model chooses) and the instance state `self.playlist` passed
explicitly.  Returns the call result and the playlist state after the call:
invalid content raises (wrapped by the outer `except`) and leaves the state
untouched. -/
def load_playlist (fetched : String) (playlist : List StreamEntry) :
    Except String (List StreamEntry) × List StreamEntry :=
  if is_valid_m3u8_content fetched then
    let entries := extract_urls_and_qualities fetched
    (.ok entries, entries)
  else
    (.error "Playlist loading failed: Invalid M3U8 playlist content", playlist)

/-- Absolute numeric distance used by `get_quality`. -/
def distTo (target : Int) (s : StreamEntry) : Nat :=
  (s.quality - target).natAbs

/-- Second loop of `M3U8Service.get_quality`: `smallest_diff` starts at
infinity and is improved strictly, so the first closest entry wins ties. -/
def closestFold (target : Int) (playlist : List StreamEntry) :
    Option (StreamEntry × Nat) :=
  playlist.foldl
    (fun acc s =>
      match acc with
      | none => some (s, distTo target s)
      | some (b, d) =>
        if distTo target s < d then some (s, distTo target s) else some (b, d))
    none

/-- M3U8Service.get_quality: exact match first (first in input order), else
the entry with minimum absolute distance, strict improvement only. -/
def get_quality (playlist : List StreamEntry) (target : Int) :
    Option StreamEntry :=
  if playlist.isEmpty then none
  else
    match playlist.find? (fun s => s.quality == target) with
    | some s => some s
    | none => (closestFold target playlist).map Prod.fst

/-! ## DownloadEngine registry (apps/core/services/download_engine.py, lines 58-231)

The engine keeps `self.downloads : Dict[str, DownloadTask]` keyed by
`_generate_download_id(url, file_path) = md5(f"{url}:{file_path}")`.
MD5 is a deterministic function of its input, and the registry claims only
depend on identical inputs producing identical keys, so the embedding uses
the pre-image string itself as the key. -/

/-- Data of a `DownloadTask` as constructed by `DownloadEngine.download`
(the progress callback is not part of the identity of the task). -/
structure EngineTask where
  download_id : String
  url : String
  file_path : String
deriving DecidableEq, Repr

/-- DownloadEngine._generate_download_id (md5 modelled by its pre-image,
see the section comment). -/
def generate_download_id (url file_path : String) : String :=
  url ++ ":" ++ file_path

/-- Registry state `self.downloads`, an insertion-ordered map. -/
structure Engine where
  downloads : List (String × EngineTask)
deriving DecidableEq, Repr

/-- Lookup in the registry (`download_id in self.downloads`). -/
def regLookup (l : List (String × EngineTask)) (k : String) : Option EngineTask :=
  match l with
  | [] => none
  | (k', t) :: rest => if k' = k then some t else regLookup rest k

/-- DownloadEngine.download: return the existing task for this
`(url, file_path)` key if present, otherwise create one and register it. -/
def Engine.download (e : Engine) (url file_path : String) : EngineTask × Engine :=
  let download_id := generate_download_id url file_path
  match regLookup e.downloads download_id with
  | some task => (task, e)
  | none =>
    let task : EngineTask := ⟨download_id, url, file_path⟩
    (task, ⟨e.downloads ++ [(download_id, task)]⟩)

/-! ## DownloadTask._download_with_progress (download_engine.py, lines 580-870)

The transfer is modelled as a pure function of: the initial `<target>.tmp`
content, the initial `<target>` content, the HTTP status the server answers,
the list of body chunks the response yields, and a signal describing when
(if ever) the cancel flag is raised or a network exception is thrown inside
the chunk loop.  The function produces the ordered list of filesystem events
the code performs plus the final state. -/

/-- Filesystem events performed by `_download_with_progress`. -/
inductive FsEvent where
  /-- `_save_metadata` writes `<target>.mtd`. -/
  | writeMeta
  /-- `os.remove(temp_file_path)` on a 200 answer to a ranged request. -/
  | removeTemp
  /-- one chunk appended to `<target>.tmp`. -/
  | writeChunk (bytes : List Nat)
  /-- `os.remove(self.file_path)` before the final rename. -/
  | removeFinal
  /-- `os.rename(temp_file_path, self.file_path)`. -/
  | renameTempToFinal
  /-- `os.remove(metadata_path)` after a complete transfer. -/
  | removeMetaFile
deriving DecidableEq, Repr

/-- How one attempt of `_download_with_progress` ends. -/
inductive DwpOutcome where
  /-- the chunk loop ran to completion and the function returned `True`. -/
  | ok
  /-- the cancel flag was seen at a chunk boundary; the function returned
  `False` without finalizing. -/
  | cancelled
  /-- an exception was raised (bad status or mid-stream failure) and
  propagates to the retry loop in `start`. -/
  | failed
deriving DecidableEq, Repr

/-- External events during the chunk loop: nothing, the cancel flag raised
before chunk `k` (0-based), or an exception thrown before chunk `k`.  An
index past the end of the body means the loop already finished. -/
inductive RunSignal where
  | quiet
  | cancelBefore (k : Nat)
  | errorBefore (k : Nat)
deriving DecidableEq, Repr

/-- Result of one `_download_with_progress` attempt. -/
structure DwpResult where
  /-- resume offset sent in the `Range` header, if one was sent. -/
  rangeHeader : Option Nat
  /-- ordered filesystem events performed. -/
  trace : List FsEvent
  outcome : DwpOutcome
  /-- `<target>.tmp` content at return (none = absent). -/
  tempContent : Option (List Nat)
  /-- `<target>` content at return (none = absent). -/
  finalContent : Option (List Nat)
  /-- does `<target>.mtd` exist at return? -/
  metaExists : Bool
  /-- `self.progress.downloaded_size` right before the chunk loop starts. -/
  downloadedAtLoopStart : Nat
deriving DecidableEq, Repr

/-- Chunks actually written given the signal (the cancel/error checks run at
chunk boundaries, before each write). -/
def chunksWritten (chunks : List (List Nat)) : RunSignal → List (List Nat)
  | .quiet => chunks
  | .cancelBefore k => chunks.take k
  | .errorBefore k => chunks.take k

/-- DownloadTask._download_with_progress as an event-trace function.
Follows download_engine.py lines 705-784 line by line: compute the resume
offset from the temp file, send `Range` iff it is positive, save the sidecar
metadata, then inspect the status: not 200/206 raises; 200 with a pending
resume discards the partial temp file and restarts at zero; 206 appends.
After a complete chunk loop the temp file is renamed over the target and the
metadata file removed. -/
def download_with_progress (tempInit : Option (List Nat))
    (finalInit : Option (List Nat)) (status : Nat) (chunks : List (List Nat))
    (signal : RunSignal) : DwpResult :=
  let resume0 : Nat := (tempInit.map List.length).getD 0
  let rangeHeader : Option Nat := if resume0 > 0 then some resume0 else none
  -- `_save_metadata` runs before the GET and before any content byte
  let trace0 : List FsEvent := [.writeMeta]
  if status ≠ 200 ∧ status ≠ 206 then
    { rangeHeader := rangeHeader, trace := trace0, outcome := .failed,
      tempContent := tempInit, finalContent := finalInit, metaExists := true,
      downloadedAtLoopStart := resume0 }
  else
    -- 200 with a pending resume: start over (temp removed, counter reset)
    let reset : Bool := status = 200 ∧ resume0 > 0
    let resume : Nat := if reset then 0 else resume0
    let trace1 : List FsEvent :=
      trace0 ++ (if reset ∧ tempInit.isSome then [.removeTemp] else [])
    -- mode = append iff resume > 0; 'wb' truncates, 'ab' keeps the content
    let base : List Nat := if resume > 0 then tempInit.getD [] else []
    let written := chunksWritten chunks signal
    let trace2 : List FsEvent := trace1 ++ written.map .writeChunk
    let tempAfterLoop : List Nat := base ++ written.flatten
    match signal with
    | .cancelBefore k =>
      if k < chunks.length then
        { rangeHeader := rangeHeader, trace := trace2, outcome := .cancelled,
          tempContent := some tempAfterLoop, finalContent := finalInit,
          metaExists := true, downloadedAtLoopStart := resume }
      else
        -- the flag was never observed inside the loop: normal completion
        { rangeHeader := rangeHeader,
          trace := trace2 ++ (if finalInit.isSome then [.removeFinal] else [])
            ++ [.renameTempToFinal, .removeMetaFile],
          outcome := .ok, tempContent := none,
          finalContent := some tempAfterLoop, metaExists := false,
          downloadedAtLoopStart := resume }
    | .errorBefore k =>
      if k < chunks.length then
        { rangeHeader := rangeHeader, trace := trace2, outcome := .failed,
          tempContent := some tempAfterLoop, finalContent := finalInit,
          metaExists := true, downloadedAtLoopStart := resume }
      else
        { rangeHeader := rangeHeader,
          trace := trace2 ++ (if finalInit.isSome then [.removeFinal] else [])
            ++ [.renameTempToFinal, .removeMetaFile],
          outcome := .ok, tempContent := none,
          finalContent := some tempAfterLoop, metaExists := false,
          downloadedAtLoopStart := resume }
    | .quiet =>
      { rangeHeader := rangeHeader,
        trace := trace2 ++ (if finalInit.isSome then [.removeFinal] else [])
          ++ [.renameTempToFinal, .removeMetaFile],
        outcome := .ok, tempContent := none,
        finalContent := some tempAfterLoop, metaExists := false,
        downloadedAtLoopStart := resume }

/-! ## M3U8Downloader stream assembly (download_engine.py, lines 873-1004)

`download_m3u8_stream` is modelled over the segment URL list produced by
`_get_stream_segments` and a network oracle mapping a segment URL to its
bytes (`some data`) or to a failure (`none`): a non-200 status and a thrown
exception are both caught inside `download_segment`, which then returns an
empty byte string. -/

/-- Inner `download_segment` closure of `_download_segments_chunk`: any
failure is swallowed and yields `b''`. -/
def download_segment (fetch : String → Option (List Nat)) (url : String) :
    List Nat :=
  (fetch url).getD []

/-- M3U8Downloader._download_segments_chunk: gather preserves input order. -/
def download_segments_chunk (fetch : String → Option (List Nat))
    (urls : List String) : List (List Nat) :=
  urls.map (download_segment fetch)

/-- Slices of size `n` in order (`segments[i:i+chunk_size]`), by fuel on the
list length. -/
def chunksOfAux (n : Nat) : Nat → List α → List (List α)
  | 0, _ => []
  | _, [] => []
  | fuel + 1, xs@(_ :: _) => xs.take n :: chunksOfAux n fuel (xs.drop n)

/-- The `range(0, total_segments, chunk_size)` slicing of the segment list. -/
def chunksOf (n : Nat) (xs : List α) : List (List α) :=
  chunksOfAux n xs.length xs

/-- Result of `download_m3u8_stream`: the returned boolean and the output
file content (`none` when the output file was never created). -/
structure M3U8StreamResult where
  success : Bool
  outputFile : Option (List Nat)
deriving DecidableEq, Repr

/-- M3U8Downloader.download_m3u8_stream over the parsed segment list: no
segments raises (caught, returns `False`, no output file); otherwise the
segments are downloaded in slices of 100 and every non-empty result is
appended to the output file, after which the call returns `True` — a failed
segment contributed `b''` and was skipped by `if data:`. -/
def download_m3u8_stream (fetch : String → Option (List Nat))
    (segments : List String) : M3U8StreamResult :=
  if segments.isEmpty then ⟨false, none⟩
  else
    let out := (chunksOf 100 segments).foldl
      (fun acc c =>
        acc ++ ((download_segments_chunk fetch c).filter (· ≠ [])).flatten)
      []
    ⟨true, some out⟩

/-! ## More Python library primitives used by utils.py and tasks.py -/

/-- Python `str.title()`-style capitalization: first letter of each
alphabetic run upper-cased, the rest lower-cased. -/
def pyTitleAux : Bool → List Char → List Char
  | _, [] => []
  | prev, c :: rest =>
    if c.isAlpha then
      (if prev then c.toLower else c.toUpper) :: pyTitleAux true rest
    else
      c :: pyTitleAux false rest

/-- Python `str.title()`. -/
def pyTitle (s : String) : String :=
  ⟨pyTitleAux false s.data⟩

/-- Last index at which `c` occurs in `cs`. -/
def lastIdxOf (cs : List Char) (c : Char) : Option Nat :=
  (cs.reverse.findIdx? (· == c)).map (fun i => cs.length - 1 - i)

/-- Python `os.path.splitext` for the forward-slash paths the sources build:
the extension starts at the last dot, unless every character between the last
separator and that dot is itself a dot. -/
def splitext (s : String) : String × String :=
  let cs := s.data
  let sepIndex : Int := match lastIdxOf cs '/' with | some i => (i : Int) | none => -1
  match lastIdxOf cs '.' with
  | none => (s, "")
  | some dotIndex =>
    if (dotIndex : Int) > sepIndex ∧
        ((List.range dotIndex).any fun j =>
          sepIndex < (j : Int) ∧ cs.get? j ≠ some '.') then
      (⟨cs.take dotIndex⟩, ⟨cs.drop dotIndex⟩)
    else
      (s, "")

/-- Path component of a URL as `urlparse(url).path` produces it for the URL
shapes in the data: fragment and query cut off, `scheme://netloc` removed.
Percent-decoding (`unquote`) is the identity on the inputs modelled here. -/
def urlPath (url : String) : String :=
  let noFrag : List Char := url.data.takeWhile (· ≠ '#')
  let noQuery : List Char := noFrag.takeWhile (· ≠ '?')
  if containsSub "://".data noQuery then
    let afterScheme := (noQuery.drop ((noQuery.length - ((noQuery.dropWhile (· ≠ ':')).length)) + 3))
    ⟨afterScheme.dropWhile (· ≠ '/')⟩
  else
    ⟨noQuery⟩

/-- Characters `Utils.sanitize_filename` replaces: `[<>:"/\\|?*\x00-\x1f]`. -/
def utilsBadChar (c : Char) : Bool :=
  c == '<' || c == '>' || c == ':' || c == '"' || c == '/' || c == '\\' ||
    c == '|' || c == '?' || c == '*' || decide (c.toNat < 32)

/-- Utils.sanitize_filename (apps/core/services/utils.py): replace invalid
characters by `-`, strip dots and spaces from both ends, clamp to 255
characters keeping the extension, fall back to `unnamed`. -/
def Utils_sanitize_filename (filename : String) : String :=
  let replaced : String := ⟨filename.data.map fun c => if utilsBadChar c then '-' else c⟩
  let stripped := stripDotSpace replaced
  let limited :=
    if stripped.data.length > 255 then
      let (nm, ext) := splitext stripped
      ⟨nm.data.take (255 - ext.data.length) ++ ext.data⟩
    else stripped
  if limited = "" then "unnamed" else limited

/-- Utils.zero_pad: `floor(log10(max_val) + 1)` digits for a positive
`max_val` is exactly the decimal digit count of `max_val`;
`str(num).zfill(digits)`. -/
def zero_pad (num maxVal : Nat) : String :=
  let digits := if maxVal > 0 then (toString maxVal).data.length else 1
  let s := toString num
  ⟨List.replicate (digits - s.data.length) '0' ++ s.data⟩

/-- Return value of `Utils.get_sequence_name`. -/
structure SeqName where
  name : String
  fullPath : String
deriving DecidableEq, Repr

/-- Utils.get_sequence_name, the pure part: the returned name and path are a
function of the arguments alone; the on-disk rename reconciliation between
the two numbering schemes does not affect the returned value and is omitted
from the model. -/
def get_sequence_name (index count : Nat) (name sep path : String)
    (seq_zero_left : Bool) : SeqName :=
  let sanitized := Utils_sanitize_filename name
  let indexName := toString index ++ sep ++ sanitized
  let sequenceName := zero_pad index count ++ sep ++ sanitized
  let indexPath := pathJoin path indexName
  let sequencePath := pathJoin path sequenceName
  if indexPath = sequencePath then ⟨indexName, indexPath⟩
  else if seq_zero_left then ⟨sequenceName, sequencePath⟩
  else ⟨indexName, indexPath⟩

/-- Python `float(s)` succeeding, restricted to the integral shapes the data
carries (quality labels); a fractional or exotic literal never occurs there.
Utils.is_number is `float(value)` not raising. -/
def pyFloatOk (s : String) : Bool :=
  (pyInt s).isSome

/-- Utils.get_file_extension: extension of the URL path without the dot,
lower-cased. -/
def get_file_extension (url : String) : String :=
  pyLower ⟨(splitext (urlPath url)).2.data.dropWhile (· == '.')⟩

/-! ## Stream normalization (apps/core/services/udemy_service.py) -/

/-- One raw entry of `stream_urls['Video']` / `media_sources`: its `type`,
its `label`, and `video.get('file') or video.get('src', '')` collapsed into
one URL field (empty models missing). -/
structure VideoSource where
  vtype : String
  label : String
  url : String
deriving DecidableEq, Repr

/-- Value stored under a quality key of the `sources` dict. -/
structure SourceInfo where
  vtype : String
  url : String
deriving DecidableEq, Repr

/-- Insertion-ordered string dictionary, as Python dicts behave. -/
def dictGet (d : List (String × SourceInfo)) (k : String) : Option SourceInfo :=
  match d with
  | [] => none
  | (k', v) :: rest => if k' = k then some v else dictGet rest k

/-- Key membership test. -/
def dictHas (d : List (String × SourceInfo)) (k : String) : Bool :=
  (dictGet d k).isSome

/-- Python dict assignment: replace in place when the key exists, append
otherwise. -/
def dictSet (d : List (String × SourceInfo)) (k : String) (v : SourceInfo) :
    List (String × SourceInfo) :=
  match d with
  | [] => [(k, v)]
  | (k', v') :: rest =>
    if k' = k then (k, v) :: rest else (k', v') :: dictSet rest k v

/-- The `{minQuality, maxQuality, isEncrypted, sources}` shape returned by
`_convert_to_streams`. -/
structure Streams where
  minQuality : Option String
  maxQuality : Option String
  isEncrypted : Bool
  sources : List (String × SourceInfo)
deriving DecidableEq, Repr

/-- Running minimum starting from `float('inf')` (`none`). -/
def updMin : Option Int → Int → Option Int
  | none, n => some n
  | some m, n => some (min m n)

/-- Running maximum starting from `float('-inf')` (`none`). -/
def updMax : Option Int → Int → Option Int
  | none, n => some n
  | some m, n => some (max m n)

/-- Loop state of `_convert_to_streams`. -/
structure ConvState where
  sources : List (String × SourceInfo)
  minQ : Option Int
  maxQ : Option Int
deriving DecidableEq, Repr

/-- One iteration of the `for video in stream_urls` loop of
`_convert_to_streams`.  DASH entries are skipped; an `auto` label on
non-encrypted content is dereferenced through the M3U8 resolver (`none`
models a playlist-load failure, which the source catches and logs); every
resolved quality is merged only when its key is not yet present. -/
def convStep (resolver : String → Option (List StreamEntry)) (isEnc : Bool)
    (st : ConvState) (video : VideoSource) : ConvState :=
  if video.vtype = "application/dash+xml" then st
  else
    let quality := pyLower video.label
    if video.url = "" then st
    else
      let st1 : ConvState :=
        { st with sources := dictSet st.sources quality ⟨video.vtype, video.url⟩ }
      if quality ≠ "auto" then
        match pyInt quality with
        | some n => { st1 with minQ := updMin st1.minQ n, maxQ := updMax st1.maxQ n }
        | none => st1
      else if ¬ isEnc then
        match resolver video.url with
        | some playlist =>
          playlist.foldl
            (fun s item =>
              let s' : ConvState :=
                { s with minQ := updMin s.minQ item.quality,
                         maxQ := updMax s.maxQ item.quality }
              let key := toString item.quality
              if dictHas s'.sources key then s'
              else { s' with sources := s'.sources ++ [(key, ⟨video.vtype, item.url⟩)] })
            st1
        | none => st1
      else st1

/-- UdemyService._convert_to_streams.  With `is_encrypted` false the entries
whose URL lies under `/encrypted-files` are filtered out first; if that
leaves nothing, the content is reclassified as encrypted and the original
entries are kept.  An empty input raises (wrapped by the outer except). -/
def convert_to_streams (resolver : String → Option (List StreamEntry))
    (stream_urls : List VideoSource) (is_encrypted : Bool) :
    Except String Streams :=
  if stream_urls = [] then
    .error "Stream conversion failed: No streams found to convert"
  else
    let filtered := stream_urls.filter fun v => ¬ strContains v.url "/encrypted-files"
    let isEnc : Bool := if ¬ is_encrypted then filtered.isEmpty else is_encrypted
    let urls : List VideoSource :=
      if ¬ is_encrypted then (if filtered ≠ [] then filtered else stream_urls)
      else stream_urls
    let st := urls.foldl (convStep resolver isEnc) ⟨[], none, none⟩
    let minQS : Option String :=
      match st.minQ with
      | some m => some (toString m)
      | none => if dictHas st.sources "auto" then some "auto" else none
    let maxQS : Option String :=
      match st.maxQ with
      | some m => some (toString m)
      | none => if dictHas st.sources "auto" then some "auto" else none
    .ok ⟨minQS, maxQS, isEnc, st.sources⟩

/-- The `is_encrypted = bool(asset.get('media_license_token'))` computation
of `_prepare_stream_source` (an absent token is modelled by `""`). -/
def stream_is_encrypted (media_license_token : String) : Bool :=
  media_license_token ≠ ""

/-! ## Curriculum data model (tasks.py / udemy_service.py shapes) -/

/-- One caption entry of `asset.captions`. -/
structure Caption where
  video_label : String
  url : String
deriving DecidableEq, Repr

/-- The asset fields the planner reads.  `download_urls`/`url_set` map an
asset type to the list of its `file` URLs. -/
structure Asset where
  asset_type : String
  title : String
  body : String
  data_body : String
  filename : String
  captions : List Caption
  streams : Option Streams
  download_urls : List (String × List String)
  url_set : List (String × List String)
deriving DecidableEq, Repr

/-- One supplementary asset (attachment). -/
structure SuppAsset where
  title : String
  asset_type : String
  filename : String
  download_urls : List (String × List String)
  external_url : String
deriving DecidableEq, Repr

/-- One curriculum node (`_class`, `id`, `title`, optional asset,
supplementary assets). -/
structure Node where
  cls : String
  nid : Int
  title : String
  asset : Option Asset
  supplementary_assets : List SuppAsset
deriving DecidableEq, Repr

/-- The user preference fields the planner reads. -/
structure Prefs where
  continue_downloading_encrypted : Bool
  seq_zero_left : Bool
  skip_subtitles : Bool
deriving DecidableEq, Repr

/-- The download-task configuration fields `prepare_download_items` and the
item constructors read. -/
structure PlanConfig where
  download_type : Int
  video_quality : String
  enable_range_download : Bool
  download_start : Int
  download_end : Int
  selected_subtitle : String
  download_path : String
  course_title : String
  course_url : String
  subdomain : String
  total_items : Nat
  prefs : Prefs
deriving DecidableEq, Repr

/-- A created `DownloadItem` row (the fields the planner sets). -/
structure PlanItem where
  item_type : String
  filename : String
  source_url : String
  file_path : String
  quality : String
  format : String
  is_encrypted : Bool
deriving DecidableEq, Repr

/-! ## Item constructors (apps/downloads/tasks.py, second definitions)

The constructors below are modelled with `Utils` bound to
apps/core/services/utils.py.  In the operative module that name is unbound
(see the operative-resolution section further down), so at run time every
constructor that reaches a `Utils.…` call raises `NameError` instead of
building its item; these definitions capture the intended semantics that
the code spells out and that the `_operative` definitions collapse to an
error. -/

/-- Return shape of `Utils.get_closest_value`. -/
structure ClosestResult where
  key : String
  value : SourceInfo
deriving DecidableEq, Repr

/-- Utils.get_closest_value over the `sources` dict: numeric keys only,
strict-improvement minimum of the absolute distance (first key wins ties);
with no numeric key the first entry is returned; an empty dict raises
(`none`). -/
def get_closest_value (d : List (String × SourceInfo)) (target : Int) :
    Option ClosestResult :=
  let numeric := d.filterMap fun p => (pyInt p.1).map fun n => (n, p.1)
  match numeric with
  | [] =>
    match d with
    | [] => none
    | (k, v) :: _ => some ⟨k, v⟩
  | _ :: _ =>
    let best := numeric.foldl
      (fun acc p =>
        match acc with
        | none => some (p.2, (p.1 - target).natAbs)
        | some (bk, bd) =>
          if (p.1 - target).natAbs < bd then some (p.2, (p.1 - target).natAbs)
          else some (bk, bd))
      none
    match best with
    | some (bk, _) => (dictGet d bk).map fun v => ⟨bk, v⟩
    | none => none

/-- The `source_quality` the video constructor settles on before the final
`not in sources` correction: `none` in the outer option models an exception
inside the `try` (which drops the whole item); the inner option is the
Python value (`maxQuality`/`minQuality` may be `None`). -/
def select_source_quality (streamsOpt : Option Streams)
    (sources : List (String × SourceInfo)) (quality : String) :
    Option (Option String) :=
  if quality = "Auto" ∨ quality = "Highest" then
    some (match streamsOpt with
          | none => some "auto"
          | some st => st.maxQuality)
  else if quality = "Lowest" then
    some (match streamsOpt with
          | none => some "auto"
          | some st => st.minQuality)
  else if dictHas sources quality then
    some (some quality)
  else
    match (if pyFloatOk quality then pyInt quality else some 720) with
    | none => none
    | some t => (get_closest_value sources t).map fun c => some c.key

/-- The corrected key (`if source_quality not in sources: 'auto'`). -/
def corrected_source_quality (sources : List (String × SourceInfo)) :
    Option String → String
  | some q => if dictHas sources q then q else "auto"
  | none => "auto"

/-- The `source_url` the video constructor would use for a given streams
value and quality preference (empty when lookup fails), used to state when a
video item resolves. -/
def resolved_source_info (streamsOpt : Option Streams) (quality : String) :
    Option SourceInfo :=
  let sources := (streamsOpt.map Streams.sources).getD []
  match select_source_quality streamsOpt sources quality with
  | none => none
  | some sqPy =>
    some ((dictGet sources (corrected_source_quality sources sqPy)).getD ⟨"", ""⟩)

/-- tasks.py `create_video_download_item` (second definition): encrypted
gate, quality selection, source lookup, filename construction — with
`Utils` bound to utils.py.  As executed, the unbound `Utils` makes lines
952/966 raise inside the `try`, and the `except` at line 988 returns
`None`; see `create_video_download_item_operative`. -/
def create_video_download_item (cfg : PlanConfig) (lecture : Node)
    (chapterPath : String) (sequence : Nat) : Option PlanItem :=
  let streamsOpt := lecture.asset.bind Asset.streams
  let gate : Bool :=
    streamsOpt.isNone || (streamsOpt.map Streams.isEncrypted).getD false
  if gate ∧ ¬ cfg.prefs.continue_downloading_encrypted then none
  else
    let sources := (streamsOpt.map Streams.sources).getD []
    if sources = [] then none
    else
      match select_source_quality streamsOpt sources cfg.video_quality with
      | none => none
      | some sqPy =>
        let source_quality := corrected_source_quality sources sqPy
        let info := (dictGet sources source_quality).getD ⟨"", ""⟩
        if info.url = "" then none
        else
          let lecture_title := Utils_sanitize_filename lecture.title
          let filename := (get_sequence_name sequence cfg.total_items
            (lecture_title ++ ".mp4") ". " chapterPath
            cfg.prefs.seq_zero_left).fullPath
          some
            { item_type := "video", filename := pathBasename filename,
              source_url := info.url, file_path := filename,
              quality := source_quality, format := info.vtype,
              is_encrypted := (streamsOpt.map Streams.isEncrypted).getD false }

/-- tasks.py `create_article_download_item`: always yields an item carrying
the inline HTML body. -/
def create_article_download_item (cfg : PlanConfig) (lecture : Node)
    (chapterPath : String) (sequence : Nat) : PlanItem :=
  let asset := lecture.asset
  let body := (asset.map Asset.body).getD ""
  let content := if body ≠ "" then body else (asset.map Asset.data_body).getD ""
  let lecture_title := Utils_sanitize_filename lecture.title
  let filename := (get_sequence_name sequence cfg.total_items
    (lecture_title ++ ".html") ". " chapterPath cfg.prefs.seq_zero_left).fullPath
  { item_type := "article", filename := pathBasename filename,
    source_url := content, file_path := filename, quality := "Article",
    format := "html", is_encrypted := false }

/-- First `file` URL under a key of a `download_urls`-shaped dict:
an absent key defaults to `[{}]` whose first element has no `file` (`""`);
a present but empty list raises `IndexError` (`none`), which the item
constructors catch by dropping the item. -/
def firstFileUrl (d : List (String × List String)) (k : String) :
    Option String :=
  match d.lookup k with
  | none => some ""
  | some [] => none
  | some (u :: _) => some u

/-- tasks.py `create_file_download_item` for `file`/`e-book`/`presentation`
assets. -/
def create_file_download_item (cfg : PlanConfig) (lecture : Node)
    (chapterPath : String) (sequence : Nat) : Option PlanItem :=
  match lecture.asset with
  | none => none
  | some asset =>
    let asset_type := pyLower asset.asset_type
    let fileUrlOpt : Option String :=
      if asset_type = "file" ∨ asset_type = "e-book" then
        firstFileUrl asset.download_urls asset_type
      else if asset_type = "presentation" then
        firstFileUrl asset.url_set asset_type
      else none
    match fileUrlOpt with
    | none => none
    | some fileUrl =>
      if fileUrl = "" then none
      else
        let lecture_title := Utils_sanitize_filename lecture.title
        let filename := (get_sequence_name sequence cfg.total_items
          (lecture_title ++ ".pdf") ". " chapterPath
          cfg.prefs.seq_zero_left).fullPath
        some
          { item_type := "attachment", filename := pathBasename filename,
            source_url := fileUrl, file_path := filename,
            quality := pyTitle asset_type, format := "pdf",
            is_encrypted := false }

/-- tasks.py `create_subtitle_download_item`: first caption whose
`video_label` is among the `|`-separated selection, falling back to the
first caption. -/
def create_subtitle_download_item (cfg : PlanConfig) (lecture : Node)
    (chapterPath : String) (sequence : Nat) (selected_subtitle : String) :
    Option PlanItem :=
  let captions := (lecture.asset.map Asset.captions).getD []
  if captions = [] ∨ selected_subtitle = "" then none
  else
    let selected_languages := pySplitChar selected_subtitle '|'
    let url0 : String :=
      match captions.find? (fun c : Caption => selected_languages.contains c.video_label) with
      | some c => c.url
      | none => ""
    let url1 : String :=
      if url0 = "" then ((captions.head?.map Caption.url).getD "") else url0
    if url1 = "" then none
    else
      let lecture_title := Utils_sanitize_filename lecture.title
      let filename := (get_sequence_name sequence cfg.total_items
        (lecture_title ++ ".srt") ". " chapterPath
        cfg.prefs.seq_zero_left).fullPath
      some
        { item_type := "subtitle", filename := pathBasename filename,
          source_url := url1, file_path := filename, quality := "Subtitle",
          format := "srt", is_encrypted := false }

/-- tasks.py `create_attachment_download_item` (second definition): a file
attachment when `download_urls` is truthy, an HTML redirect when only
`external_url` is set, nothing otherwise. -/
def create_attachment_download_item (cfg : PlanConfig) (att : SuppAsset)
    (chapterPath : String) (sequence : Nat) (attachment_index : Nat) :
    Option PlanItem :=
  if att.download_urls ≠ [] then
    match firstFileUrl att.download_urls att.asset_type with
    | none => none
    | some fileUrl =>
      if fileUrl = "" then none
      else
        let ext0 := get_file_extension fileUrl
        let ext := if ext0 = "" ∧ att.filename ≠ ""
          then get_file_extension att.filename else ext0
        let filename := (get_sequence_name sequence cfg.total_items
          (Utils_sanitize_filename att.title ++ "." ++ ext)
          ("." ++ toString attachment_index ++ " ") chapterPath
          cfg.prefs.seq_zero_left).fullPath
        some
          { item_type := "attachment", filename := pathBasename filename,
            source_url := fileUrl, file_path := filename,
            quality := "Attachment", format := ext, is_encrypted := false }
  else if att.external_url ≠ "" then
    let filename := (get_sequence_name sequence cfg.total_items
      (Utils_sanitize_filename att.title ++ ".html")
      ("." ++ toString attachment_index ++ " ") chapterPath
      cfg.prefs.seq_zero_left).fullPath
    let html := "<script type=\"text/javascript\">window.location = \""
      ++ att.external_url ++ "\";</script>"
    some
      { item_type := "attachment", filename := pathBasename filename,
        source_url := html, file_path := filename, quality := "Attachment",
        format := "html", is_encrypted := false }
  else none

/-- tasks.py `create_url_download_item` for quiz/practice nodes: an HTML
redirect to the course page. -/
def create_url_download_item (cfg : PlanConfig) (lecture : Node)
    (chapterPath : String) (sequence : Nat) : PlanItem :=
  let course_url := "https://" ++ cfg.subdomain ++ ".udemy.com" ++ cfg.course_url
  let redirect_url := course_url ++ "/" ++ lecture.cls ++ "/" ++ toString lecture.nid
  let lecture_title := Utils_sanitize_filename lecture.title
  let filename := (get_sequence_name sequence cfg.total_items
    (lecture_title ++ ".html") ". " chapterPath cfg.prefs.seq_zero_left).fullPath
  let html := "<script type=\"text/javascript\">window.location = \""
    ++ redirect_url ++ "\";</script>"
  { item_type := "url", filename := pathBasename filename, source_url := html,
    file_path := filename, quality := "Attachment", format := "html",
    is_encrypted := false }

/-- The `for idx, attachment in enumerate(supplementary_assets)` loop. -/
def attachment_items (cfg : PlanConfig) (atts : List SuppAsset)
    (chapterPath : String) (sequence : Nat) : List PlanItem :=
  (atts.enum.map fun p =>
    create_attachment_download_item cfg p.2 chapterPath sequence (p.1 + 1)).filterMap id

/-- tasks.py `process_lecture_for_download` (second definition): dispatch
on node class then asset type, then append attachment items when the type
filter allows them — with `Utils` bound to utils.py (every constructor it
dispatches to calls `Utils`; as executed they raise `NameError`, and this
function is itself dead code behind the raise at prepare_download_items
line 809). -/
def process_lecture_for_download (cfg : PlanConfig) (lecture : Node)
    (chapterPath : String) (sequence : Nat) : List PlanItem :=
  let item_class := pyLower lecture.cls
  let asset_type := pyLower ((lecture.asset.map Asset.asset_type).getD "")
  let base : List PlanItem :=
    if item_class = "quiz" then
      [create_url_download_item cfg lecture chapterPath sequence]
    else if item_class = "practice" then
      [create_url_download_item cfg lecture chapterPath sequence]
    else if asset_type = "article" then
      [create_article_download_item cfg lecture chapterPath sequence]
    else if asset_type = "video" ∨ asset_type = "videomashup" then
      (if cfg.download_type = 0 ∨ cfg.download_type = 1 then
        (create_video_download_item cfg lecture chapterPath sequence).toList
      else [])
      ++ (if ¬ cfg.prefs.skip_subtitles ∧ cfg.selected_subtitle ≠ "" then
        (create_subtitle_download_item cfg lecture chapterPath sequence
          cfg.selected_subtitle).toList
      else [])
    else if asset_type = "file" ∨ asset_type = "e-book" ∨
        asset_type = "presentation" then
      (create_file_download_item cfg lecture chapterPath sequence).toList
    else []
  base ++
    (if (cfg.download_type = 0 ∨ cfg.download_type = 2) ∧
        lecture.supplementary_assets ≠ [] then
      attachment_items cfg lecture.supplementary_assets chapterPath sequence
    else [])

/-- Main loop of tasks.py `prepare_download_items` (second definition):
track the current chapter, bump the 1-based sequence counter on every
lecture/quiz/practice node under a chapter, `continue` below the range
start, `break` above the range end, and otherwise process the node with its
original sequence number. -/
def plan_loop (cfg : PlanConfig) (coursePath : String) :
    Option Node → Nat → List Node → List PlanItem
  | _, _, [] => []
  | curCh, seq, item :: rest =>
    let item_class := pyLower item.cls
    if item_class = "chapter" then
      plan_loop cfg coursePath (some item) seq rest
    else if item_class = "lecture" ∨ item_class = "quiz" ∨
        item_class = "practice" then
      match curCh with
      | none => plan_loop cfg coursePath none seq rest
      | some ch =>
        let seqn := seq + 1
        if cfg.enable_range_download ∧ (seqn : Int) < cfg.download_start then
          plan_loop cfg coursePath (some ch) seqn rest
        else if cfg.enable_range_download ∧ 0 < cfg.download_end ∧
            cfg.download_end < (seqn : Int) then
          []
        else
          let chapterPath := pathJoin coursePath (Utils_sanitize_filename ch.title)
          process_lecture_for_download cfg item chapterPath seqn ++
            plan_loop cfg coursePath (some ch) seqn rest
    else
      plan_loop cfg coursePath curCh seq rest

/-- tasks.py `prepare_download_items` (second definition) with `Utils`
bound to utils.py; directory creation is a side effect with no bearing on
the returned list.  As executed the function never gets this far: its first
statement (line 809) evaluates `Utils.sanitize_filename` on the unbound
name and raises — see `prepare_download_items_operative`.  This definition
captures the intended semantics of the loop. -/
def prepare_download_items (cfg : PlanConfig) (results : List Node) :
    List PlanItem :=
  let coursePath := pathJoin cfg.download_path
    (Utils_sanitize_filename cfg.course_title)
  plan_loop cfg coursePath none 0 results

/-! ## UdemyService.fetch_course_content (udemy_service.py, lines 270-349) -/

/-- Outcome of the paginated primary fetch: an HTTP error (`err`, carrying
the `UdemyServiceError` message), a falsy page (`nodata`, the
`if not data: return None` path), or the flattened `results` list. -/
inductive PrimaryFetch where
  | err (msg : String)
  | nodata
  | ok (results : List Node)
deriving Repr

/-- The synthetic chapter inserted when the curriculum does not start with
one. -/
def syntheticChapter : Node :=
  { cls := "chapter", nid := 0, title := "Chapter 1", asset := none,
    supplementary_assets := [] }

/-- Per-lecture enrichment (`_enrich_lecture_data` and
`_prepare_streams_source`) only replaces `asset` and
`supplementary_assets` of nodes whose `_class` is `lecture`; the fetched
data is an oracle. -/
def applyEnrichment (enrich : Node → Option Asset × List SuppAsset)
    (n : Node) : Node :=
  if n.cls = "lecture" then
    { n with asset := (enrich n).1, supplementary_assets := (enrich n).2 }
  else n

/-- UdemyService.fetch_course_content after the URL construction: a primary
error containing `503` falls back to `fetch_course_fallback`, whose raw
response is returned as is (no chapter normalization, no enrichment); other
errors re-raise.  On the primary path an empty result set yields `None`,
otherwise a synthetic `Chapter 1` is inserted when the first node is not a
chapter, and the per-lecture enrichment runs. -/
def fetch_course_content (primary : PrimaryFetch) (fallback : List Node)
    (enrich : Node → Option Asset × List SuppAsset) :
    Except String (Option (List Node)) :=
  match primary with
  | .err e => if strContains e "503" then .ok (some fallback) else .error e
  | .nodata => .ok none
  | .ok allResults =>
    if allResults.length = 0 then .ok none
    else
      let results :=
        match allResults.head? with
        | some first =>
          if first.cls ≠ "chapter" then syntheticChapter :: allResults
          else allResults
        | none => allResults
      .ok (some (results.map (applyEnrichment enrich)))

/-! ## SubtitleTranscoder (tasks.py convert_vtt_to_srt, lines 604-651) -/

/-- Match `(\d+):(\d+):(\d+)\.(\d+)` at the head of the character list,
returning the `\1:\2:\3,\4` replacement and the remainder after the match. -/
def matchTimestamp (cs : List Char) : Option (List Char × List Char) :=
  let d1 := cs.takeWhile Char.isDigit
  if d1 = [] then none else
  match cs.dropWhile Char.isDigit with
  | ':' :: r1 =>
    let d2 := r1.takeWhile Char.isDigit
    if d2 = [] then none else
    match r1.dropWhile Char.isDigit with
    | ':' :: r2 =>
      let d3 := r2.takeWhile Char.isDigit
      if d3 = [] then none else
      match r2.dropWhile Char.isDigit with
      | '.' :: r3 =>
        let d4 := r3.takeWhile Char.isDigit
        if d4 = [] then none else
        some (d1 ++ ':' :: d2 ++ ':' :: d3 ++ ',' :: d4, r3.drop d4.length)
      | _ => none
    | _ => none
  | _ => none

/-- Left-to-right non-overlapping `re.sub` scan for the timestamp pattern
(fuel is the input length; every step consumes at least one character). -/
def subTimeAux : Nat → List Char → List Char
  | 0, cs => cs
  | _, [] => []
  | fuel + 1, c :: rest =>
    match matchTimestamp (c :: rest) with
    | some (rep, after) => rep ++ subTimeAux fuel after
    | none => c :: subTimeAux fuel rest

/-- The `re.sub(r'(\d+):(\d+):(\d+)\.(\d+)', r'\1:\2:\3,\4', line)` call. -/
def sub_timestamps (s : String) : String :=
  ⟨subTimeAux s.data.length s.data⟩

/-- Inner cue-text loop: consume lines while `lines[i].strip() != ''` and
`'-->' not in lines[i]`, collecting the stripped text; the terminating line
is left for the outer loop. -/
def takeTextLines : List String → List String × List String
  | [] => ([], [])
  | l :: rest =>
    if pyStrip l ≠ "" ∧ ¬ strContains l "-->" then
      let (txt, rem) := takeTextLines rest
      (pyStrip l :: txt, rem)
    else ([], l :: rest)

/-- Outer loop of `convert_vtt_to_srt` over the split lines, carrying the
cue counter (fuel is the number of lines; every step consumes at least
one). -/
def vttLoop : Nat → Nat → List String → List String
  | 0, _, _ => []
  | _, _, [] => []
  | fuel + 1, count, l :: rest =>
    let line := pyStrip l
    if strStarts line "WEBVTT" ∨ line = "" ∨ strStarts line "NOTE" then
      vttLoop fuel count rest
    else if strContains line "-->" then
      let ts := sub_timestamps line
      let (txt, rem) := takeTextLines rest
      toString (count + 1) :: ts :: (txt ++ [""]) ++ vttLoop fuel (count + 1) rem
    else
      vttLoop fuel count rest

/-- tasks.py convert_vtt_to_srt: strip the payload, split on newlines, skip
header/blank/NOTE lines, number the cues from 1, comma-ize the timestamps,
keep text verbatim, and join with newlines. -/
def convert_vtt_to_srt (vtt : String) : String :=
  let lines := pySplitChar (pyStrip vtt) '\n'
  String.intercalate "\n" (vttLoop lines.length 0 lines)

/-! ## Operative name resolution of tasks.py

The import `from apps.core.services.utils import Utils` at tasks.py line 22
is commented out ("Utils not implemented yet" — although
apps/core/services/utils.py does implement it) and nothing else binds the
name, so at run time every `Utils.…` attribute access raises
`NameError: name 'Utils' is not defined`.  The definitions below model the
planner as CPython executes it. -/

/-- Evaluating `Utils.…` with the name unbound: the access raises before
producing any value. -/
def utilsUnbound : Except String Empty :=
  .error "NameError: name 'Utils' is not defined"

/-- tasks.py `prepare_download_items` as executed: its first statement
(line 809) is `course_name = Utils.sanitize_filename(...)`, which raises
`NameError` before the chapter loop can run; the exception propagates to
`download_course_task`'s handler, which marks the whole task failed.  The
loop that follows (modelled by `prepare_download_items`) is dead code. -/
def prepare_download_items_operative (cfg : PlanConfig) (results : List Node) :
    Except String (List PlanItem) :=
  match utilsUnbound with
  | .error e => .error e
  | .ok v => v.elim

/-- Quality selection as executed: the `Auto`/`Highest`/`Lowest` and
exact-match branches read no `Utils` attribute; the closest-match branch
(line 952) evaluates `Utils.is_number`/`Utils.get_closest_value` on the
unbound name and raises (outer `none`, the same exception encoding as
`select_source_quality`). -/
def select_source_quality_operative (streamsOpt : Option Streams)
    (sources : List (String × SourceInfo)) (quality : String) :
    Option (Option String) :=
  if quality = "Auto" ∨ quality = "Highest" then
    some (match streamsOpt with
          | none => some "auto"
          | some st => st.maxQuality)
  else if quality = "Lowest" then
    some (match streamsOpt with
          | none => some "auto"
          | some st => st.minQuality)
  else if dictHas sources quality then
    some (some quality)
  else
    match utilsUnbound with
    | .error _ => none
    | .ok v => v.elim

/-- tasks.py `create_video_download_item` as executed: the encrypted gate,
the empty-sources check and the empty-URL check return `None` normally, and
every branch that would construct the item evaluates
`Utils.sanitize_filename` (line 966) — or already raised during the closest
selection at line 952 — so the `except Exception` at line 988 turns the
`NameError` into `None`: the item is never created. -/
def create_video_download_item_operative (cfg : PlanConfig) (lecture : Node)
    (chapterPath : String) (sequence : Nat) : Option PlanItem :=
  let streamsOpt := lecture.asset.bind Asset.streams
  let gate : Bool :=
    streamsOpt.isNone || (streamsOpt.map Streams.isEncrypted).getD false
  if gate ∧ ¬ cfg.prefs.continue_downloading_encrypted then none
  else
    let sources := (streamsOpt.map Streams.sources).getD []
    if sources = [] then none
    else
      match select_source_quality_operative streamsOpt sources
          cfg.video_quality with
      | none => none
      | some sqPy =>
        let source_quality := corrected_source_quality sources sqPy
        let info := (dictGet sources source_quality).getD ⟨"", ""⟩
        if info.url = "" then none
        else
          match utilsUnbound with
          | .error _ => none
          | .ok v => v.elim

/-! ## Concrete instances used by witnesses and counterexamples -/

/-- Segment network oracle with one failing segment (`b.ts`). -/
def c1Fetch : String → Option (List Nat) := fun u =>
  if u = "a.ts" then some [1, 2] else if u = "c.ts" then some [3] else none

/-- The quality set of the spec's nearest-match test. -/
def demoPlaylist : List StreamEntry :=
  [⟨144, "256x144", "u144"⟩, ⟨360, "640x360", "u360"⟩,
   ⟨720, "1280x720", "u720"⟩, ⟨1080, "1920x1080", "u1080"⟩]

/-- A lecture node with no asset, as the fallback endpoint would hand back. -/
def c10Lecture : Node :=
  { cls := "lecture", nid := 5, title := "L1", asset := none,
    supplementary_assets := [] }

/-- Enrichment oracle that re-fetches exactly what a node already carries. -/
def idEnrich : Node → Option Asset × List SuppAsset := fun n =>
  (n.asset, n.supplementary_assets)

/-- Reference recursion for the strict-improvement loop of `get_quality`:
keep the incumbent unless a strictly closer entry appears. -/
def firstClosest (target : Int) (b : StreamEntry) : List StreamEntry → StreamEntry
  | [] => b
  | s :: rest =>
    if distTo target s < distTo target b then firstClosest target s rest
    else firstClosest target b rest

/-- Nodes that bump the planner's sequence counter. -/
def lectureLike (n : Node) : Prop :=
  pyLower n.cls = "lecture" ∨ pyLower n.cls = "quiz" ∨ pyLower n.cls = "practice"

instance (n : Node) : Decidable (lectureLike n) := by
  unfold lectureLike; infer_instance

/-- Planner configuration for the range-filter scenario: range `[3, 5]`
enabled over the curriculum. -/
def c4Cfg : PlanConfig :=
  { download_type := 0, video_quality := "Auto", enable_range_download := true,
    download_start := 3, download_end := 5, selected_subtitle := "",
    download_path := "dl", course_title := "Course", course_url := "/course/c1",
    subdomain := "www", total_items := 0,
    prefs := ⟨true, false, true⟩ }

/-- The single chapter heading the range-filter scenario. -/
def c4Chapter : Node :=
  { cls := "chapter", nid := 1, title := "Intro", asset := none,
    supplementary_assets := [] }

/-- Quiz node number `i` (quiz nodes always produce one redirect item). -/
def c4Node (i : Nat) : Node :=
  { cls := "quiz", nid := (i : Int), title := "Q" ++ toString i, asset := none,
    supplementary_assets := [] }

/-- Ten sequence-counted nodes. -/
def c4Nodes : List Node :=
  (List.range 10).map c4Node

/-- Planner configuration for the encrypted-exclusion scenario,
parameterized by the allow-encrypted preference. -/
def c5Cfg (allow : Bool) : PlanConfig :=
  { download_type := 0, video_quality := "Auto",
    enable_range_download := false, download_start := 0, download_end := 0,
    selected_subtitle := "", download_path := "dl", course_title := "Course",
    course_url := "/course/c1", subdomain := "www", total_items := 0,
    prefs := ⟨allow, false, true⟩ }

/-- Resolver oracle for the encrypted scenario (never consulted, since the
content is encrypted). -/
def c5Resolver : String → Option (List StreamEntry) := fun _ => none

/-- A single source whose URL lies under `/encrypted-files`. -/
def c5Urls : List VideoSource :=
  [⟨"video/mp4", "720", "https://h/encrypted-files/a.mp4"⟩]

/-- The streams value `_convert_to_streams` produces for `c5Urls` with the
license token set. -/
def c5Streams : Streams :=
  { minQuality := some "720", maxQuality := some "720", isEncrypted := true,
    sources := [("720", ⟨"video/mp4", "https://h/encrypted-files/a.mp4"⟩)] }

/-- The lecture asset carrying the encrypted streams. -/
def c5Asset : Asset :=
  { asset_type := "Video", title := "V", body := "", data_body := "",
    filename := "", captions := [], streams := some c5Streams,
    download_urls := [], url_set := [] }

/-- The lecture node of the encrypted scenario. -/
def c5Lecture : Node :=
  { cls := "lecture", nid := 9, title := "Lec", asset := some c5Asset,
    supplementary_assets := [] }

/-! ## Theorems -/

/-- C8: convert_vtt_to_srt maps `WEBVTT\n\n00:00:01.000 --> 00:00:02.500\nHello`
to `1\n00:00:01,000 --> 00:00:02,500\nHello\n` — the WEBVTT header and blank
line are stripped, the cue gets index 1, the dots before milliseconds become
commas, and the text line is kept verbatim. -/
theorem c8_convert_vtt_to_srt_example :
    convert_vtt_to_srt "WEBVTT\n\n00:00:01.000 --> 00:00:02.500\nHello" =
      "1\n00:00:01,000 --> 00:00:02,500\nHello\n" := by
  decide

/-- C1 counterexample: with segments `a.ts`, `b.ts`, `c.ts` where fetching
`b.ts` fails, `download_m3u8_stream` still reports success and retains an
output file holding only the other segments' bytes — contradicting the
claim that a segment failure fails the whole assembly with no partial
output. -/
theorem c1_counterexample :
    c1Fetch "b.ts" = none ∧
    (download_m3u8_stream c1Fetch ["a.ts", "b.ts", "c.ts"]).success = true ∧
    (download_m3u8_stream c1Fetch ["a.ts", "b.ts", "c.ts"]).outputFile =
      some [1, 2, 3] := by
  decide

/-- Flattening ignores the `if data:` filter: empty byte strings contribute
nothing. -/
theorem filter_nonempty_flatten (l : List (List Nat)) :
    ((l.filter (· ≠ [])).flatten : List Nat) = l.flatten := by
  induction l with
  | nil => rfl
  | cons c rest ih =>
    by_cases hc : c = []
    · subst hc; simp_all [List.filter_cons]
    · simp_all [List.filter_cons]

/-- Appending folds concatenate the mapped pieces. -/
theorem foldl_append_flatten (g : List String → List Nat) :
    ∀ (l : List (List String)) (a : List Nat),
      l.foldl (fun acc c => acc ++ g c) a = a ++ (l.map g).flatten := by
  intro l
  induction l with
  | nil => intro a; simp
  | cons c rest ih => intro a; simp [List.foldl_cons, ih]

/-- The chunked slicing reassembles to the original list. -/
theorem chunksOfAux_flatten (n : Nat) (hn : 0 < n) :
    ∀ (fuel : Nat) (xs : List String), xs.length ≤ fuel →
      (chunksOfAux n fuel xs).flatten = xs := by
  intro fuel
  induction fuel with
  | zero =>
    intro xs hxs
    have : xs = [] := List.length_eq_zero.mp (Nat.le_zero.mp hxs)
    subst this; rfl
  | succ fuel ih =>
    intro xs hxs
    match xs with
    | [] => rfl
    | y :: ys =>
      have hdrop : (List.drop n (y :: ys)).length ≤ fuel := by
        have : (y :: ys).length - n ≤ fuel := by
          have hlen : (y :: ys).length ≤ fuel + 1 := hxs
          omega
        simpa [List.length_drop] using this
      calc (chunksOfAux n (fuel + 1) (y :: ys)).flatten
          = (y :: ys).take n ++ (chunksOfAux n fuel ((y :: ys).drop n)).flatten := by
            simp [chunksOfAux]
        _ = (y :: ys).take n ++ (y :: ys).drop n := by rw [ih _ hdrop]
        _ = y :: ys := List.take_append_drop n (y :: ys)

/-- Mapped flattening commutes with the chunk slicing. -/
theorem flatten_map_chunks (dl : String → List Nat) :
    ∀ (chunks : List (List String)),
      (chunks.map (fun c => (c.map dl).flatten)).flatten =
        ((chunks.flatten).map dl).flatten := by
  intro chunks
  induction chunks with
  | nil => rfl
  | cons c rest ih => simp [ih]

/-- C1 amended: a failed segment is swallowed — it contributes zero bytes
(there is no per-segment retry), the assembly still reports success for any
nonempty segment list, and the retained output file is the concatenation of
whatever each segment fetch produced. -/
theorem c1_segment_failure_swallowed (fetch : String → Option (List Nat))
    (segments : List String) (h : segments ≠ []) :
    (download_m3u8_stream fetch segments).success = true ∧
    (download_m3u8_stream fetch segments).outputFile =
      some ((segments.map (download_segment fetch)).flatten) := by
  have hne : segments.isEmpty = false := by
    cases segments with
    | nil => exact absurd rfl h
    | cons a l => rfl
  constructor
  · simp [download_m3u8_stream, hne]
  · have hstep : ∀ c : List String,
        ((download_segments_chunk fetch c).filter (· ≠ [])).flatten =
          (c.map (download_segment fetch)).flatten := by
      intro c
      simpa [download_segments_chunk] using
        filter_nonempty_flatten (c.map (download_segment fetch))
    have hfold :
        (chunksOf 100 segments).foldl
            (fun acc c =>
              acc ++ ((download_segments_chunk fetch c).filter (· ≠ [])).flatten)
            [] =
          ((chunksOf 100 segments).map
            (fun c => (c.map (download_segment fetch)).flatten)).flatten := by
      have := foldl_append_flatten
        (fun c => ((download_segments_chunk fetch c).filter (· ≠ [])).flatten)
        (chunksOf 100 segments) []
      rw [this]
      simp only [hstep, List.nil_append]
    have hjoin : (chunksOf 100 segments).flatten = segments :=
      chunksOfAux_flatten 100 (by norm_num) segments.length segments le_rfl
    simp only [download_m3u8_stream, hne, Bool.false_eq_true, if_false]
    rw [hfold, flatten_map_chunks, hjoin]

/-- C1 amended witness at the concrete failing run. -/
theorem c1_segment_failure_swallowed_witness :
    (["a.ts", "b.ts", "c.ts"] : List String) ≠ [] ∧
    ((download_m3u8_stream c1Fetch ["a.ts", "b.ts", "c.ts"]).success = true ∧
     (download_m3u8_stream c1Fetch ["a.ts", "b.ts", "c.ts"]).outputFile =
       some (((["a.ts", "b.ts", "c.ts"] : List String).map
         (download_segment c1Fetch)).flatten)) :=
  ⟨by decide, c1_segment_failure_swallowed c1Fetch ["a.ts", "b.ts", "c.ts"] (by decide)⟩

/-- C9: when the fetched playlist text does not begin with `#EXTM3U` after
stripping, `load_playlist` raises the invalid-playlist error, never returns
a parsed playlist, and leaves the stored playlist untouched. -/
theorem c9_invalid_playlist_rejected (content : String)
    (playlist : List StreamEntry) (h : is_valid_m3u8_content content = false) :
    (load_playlist content playlist).1 =
      Except.error "Playlist loading failed: Invalid M3U8 playlist content" ∧
    (load_playlist content playlist).2 = playlist ∧
    ∀ entries, (load_playlist content playlist).1 ≠ Except.ok entries := by
  refine ⟨?_, ?_, ?_⟩ <;> simp [load_playlist, h]

/-- C9 witness on a playlist body that lacks the header. -/
theorem c9_invalid_playlist_rejected_witness :
    is_valid_m3u8_content "hello world" = false ∧
    (load_playlist "hello world" []).1 =
      Except.error "Playlist loading failed: Invalid M3U8 playlist content" ∧
    (load_playlist "hello world" []).2 = ([] : List StreamEntry) :=
  ⟨by decide, (c9_invalid_playlist_rejected "hello world" [] (by decide)).1,
    (c9_invalid_playlist_rejected "hello world" [] (by decide)).2.1⟩

/-- Inserting a fresh key at the back makes it visible to lookup. -/
theorem regLookup_append_self (l : List (String × EngineTask)) (k : String)
    (t : EngineTask) (h : regLookup l k = none) :
    regLookup (l ++ [(k, t)]) k = some t := by
  induction l with
  | nil => simp [regLookup]
  | cons p rest ih =>
    by_cases hk : p.1 = k
    · simp [regLookup, hk] at h
    · simp only [regLookup, hk, if_false] at h ⊢
      simpa [List.cons_append, regLookup, hk] using ih h

/-- C3: a second `DownloadEngine.download` call with identical url and path
returns the very pair the first call produced — the same task instance and
the unchanged registry; no duplicate transfer task is created. -/
theorem c3_download_at_most_one_per_path (e : Engine) (url file_path : String) :
    ((e.download url file_path).2).download url file_path =
      e.download url file_path := by
  unfold Engine.download
  cases hl : regLookup e.downloads (generate_download_id url file_path) with
  | some t => simp [hl]
  | none =>
    simp only [hl]
    rw [regLookup_append_self e.downloads (generate_download_id url file_path) _ hl]

/-- C2: for a resumed transfer over a partial temp file of size `k > 0`,
the request carries `Range: bytes=k-`; a 200 answer discards the partial
data — the temp file is removed, the downloaded counter resets to 0, and a
completed transfer yields exactly the freshly received bytes — while a 206
answer appends: the counter starts at `k` and a completed transfer yields
the partial bytes followed by the received bytes. -/
theorem c2_resume_200_restarts_206_appends (t : List Nat)
    (finalInit : Option (List Nat)) (chunks : List (List Nat)) (h : t ≠ []) :
    ((download_with_progress (some t) finalInit 200 chunks .quiet).rangeHeader
        = some t.length ∧
      FsEvent.removeTemp ∈
        (download_with_progress (some t) finalInit 200 chunks .quiet).trace ∧
      (download_with_progress (some t) finalInit 200 chunks
        .quiet).downloadedAtLoopStart = 0 ∧
      (download_with_progress (some t) finalInit 200 chunks .quiet).finalContent
        = some chunks.flatten) ∧
    ((download_with_progress (some t) finalInit 206 chunks .quiet).rangeHeader
        = some t.length ∧
      (download_with_progress (some t) finalInit 206 chunks
        .quiet).downloadedAtLoopStart = t.length ∧
      (download_with_progress (some t) finalInit 206 chunks .quiet).finalContent
        = some (t ++ chunks.flatten)) := by
  have hpos : 0 < t.length := List.length_pos.mpr h
  constructor
  · refine ⟨?_, ?_, ?_, ?_⟩ <;>
      simp [download_with_progress, chunksWritten, hpos, Nat.pos_iff_ne_zero.mp hpos]
  · refine ⟨?_, ?_, ?_⟩ <;>
      simp [download_with_progress, chunksWritten, hpos, Nat.pos_iff_ne_zero.mp hpos]

/-- C2 witness: a one-byte partial file, one received chunk. -/
theorem c2_resume_200_restarts_206_appends_witness :
    ([7] : List Nat) ≠ [] ∧
    (((download_with_progress (some [7]) none 200 [[8, 9]] .quiet).rangeHeader
        = some 1 ∧
      FsEvent.removeTemp ∈
        (download_with_progress (some [7]) none 200 [[8, 9]] .quiet).trace ∧
      (download_with_progress (some [7]) none 200 [[8, 9]]
        .quiet).downloadedAtLoopStart = 0 ∧
      (download_with_progress (some [7]) none 200 [[8, 9]] .quiet).finalContent
        = some ([[8, 9]] : List (List Nat)).flatten) ∧
    ((download_with_progress (some [7]) none 206 [[8, 9]] .quiet).rangeHeader
        = some 1 ∧
      (download_with_progress (some [7]) none 206 [[8, 9]]
        .quiet).downloadedAtLoopStart = 1 ∧
      (download_with_progress (some [7]) none 206 [[8, 9]] .quiet).finalContent
        = some ([7] ++ ([[8, 9]] : List (List Nat)).flatten))) :=
  ⟨by decide, c2_resume_200_restarts_206_appends [7] none [[8, 9]] (by decide)⟩

/-- Traces that start with the metadata write have it before any content
write. -/
theorem meta_before_chunk_of_head (tr : List FsEvent)
    (h : tr.head? = some FsEvent.writeMeta) :
    ∀ i b, tr.get? i = some (FsEvent.writeChunk b) →
      ∃ j, j < i ∧ tr.get? j = some FsEvent.writeMeta := by
  intro i b hi
  cases tr with
  | nil => simp at h
  | cons a tl =>
    have ha : a = FsEvent.writeMeta := by simpa using h
    cases i with
    | zero =>
      subst ha
      simp at hi
    | succ n => exact ⟨0, Nat.succ_pos n, by simp [ha]⟩

/-- C7: in every execution of `_download_with_progress` the sidecar
metadata file is written first — before any content byte reaches the temp
file — and it is removed exactly in the executions that complete
successfully: after a cancellation or a failure it is still on disk. -/
theorem c7_metadata_lifecycle (tempInit finalInit : Option (List Nat))
    (status : Nat) (chunks : List (List Nat)) (signal : RunSignal) :
    ((download_with_progress tempInit finalInit status chunks
        signal).trace.head? = some FsEvent.writeMeta) ∧
    (∀ i b, (download_with_progress tempInit finalInit status chunks
        signal).trace.get? i = some (FsEvent.writeChunk b) →
      ∃ j, j < i ∧ (download_with_progress tempInit finalInit status chunks
        signal).trace.get? j = some FsEvent.writeMeta) ∧
    (FsEvent.removeMetaFile ∈
        (download_with_progress tempInit finalInit status chunks
          signal).trace ↔
      (download_with_progress tempInit finalInit status chunks
        signal).outcome = .ok) ∧
    ((download_with_progress tempInit finalInit status chunks
        signal).metaExists = true ↔
      (download_with_progress tempInit finalInit status chunks
        signal).outcome ≠ .ok) := by
  have hhead : (download_with_progress tempInit finalInit status chunks
      signal).trace.head? = some FsEvent.writeMeta := by
    unfold download_with_progress
    by_cases hs : status ≠ 200 ∧ status ≠ 206
    · simp [hs]
    · cases signal with
      | quiet => simp [hs]
      | cancelBefore k =>
        by_cases hk : k < chunks.length <;> simp [hs, hk]
      | errorBefore k =>
        by_cases hk : k < chunks.length <;> simp [hs, hk]
  refine ⟨hhead, meta_before_chunk_of_head _ hhead, ?_, ?_⟩ <;>
  · unfold download_with_progress
    by_cases hs : status ≠ 200 ∧ status ≠ 206
    · simp [hs]
    · cases signal with
      | quiet => simp [hs]
      | cancelBefore k =>
        by_cases hk : k < chunks.length <;> simp [hs, hk]
      | errorBefore k =>
        by_cases hk : k < chunks.length <;> simp [hs, hk]

/-- The fold of `get_quality` computes `firstClosest`. -/
theorem closestFold_foldl (target : Int) :
    ∀ (l : List StreamEntry) (b : StreamEntry),
      l.foldl
        (fun acc s =>
          match acc with
          | none => some (s, distTo target s)
          | some (b', d) =>
            if distTo target s < d then some (s, distTo target s)
            else some (b', d))
        (some (b, distTo target b)) =
      some (firstClosest target b l, distTo target (firstClosest target b l)) := by
  intro l
  induction l with
  | nil => intro b; rfl
  | cons s rest ih =>
    intro b
    by_cases hcmp : distTo target s < distTo target b
    · simp only [List.foldl_cons, hcmp, if_true, firstClosest]
      exact ih s
    · simp only [List.foldl_cons, hcmp, if_false, firstClosest]
      exact ih b

/-- On a nonempty playlist the fold returns `firstClosest`. -/
theorem closestFold_cons (target : Int) (b : StreamEntry)
    (l : List StreamEntry) :
    closestFold target (b :: l) =
      some (firstClosest target b l, distTo target (firstClosest target b l)) := by
  unfold closestFold
  rw [List.foldl_cons]
  exact closestFold_foldl target l b

/-- The strict-improvement loop returns the first entry of minimal
distance: it is minimal, and every strictly earlier entry is strictly
farther. -/
theorem firstClosest_spec (target : Int) :
    ∀ (l : List StreamEntry) (b : StreamEntry),
      ∃ i, (b :: l).get? i = some (firstClosest target b l) ∧
        (∀ t ∈ b :: l,
          distTo target (firstClosest target b l) ≤ distTo target t) ∧
        (∀ j t, j < i → (b :: l).get? j = some t →
          distTo target (firstClosest target b l) < distTo target t) := by
  intro l
  induction l with
  | nil =>
    intro b
    refine ⟨0, rfl, ?_, ?_⟩
    · intro t ht
      have : t = b := by simpa using ht
      subst this; exact le_rfl
    · intro j t hj
      omega
  | cons s rest ih =>
    intro b
    by_cases hcmp : distTo target s < distTo target b
    · have hre : firstClosest target b (s :: rest) = firstClosest target s rest := by
        simp [firstClosest, hcmp]
      obtain ⟨i, hget, hmin, hstrict⟩ := ih s
      refine ⟨i + 1, ?_, ?_, ?_⟩
      · rw [hre]; simpa using hget
      · intro t ht
        rw [hre]
        rcases List.mem_cons.mp ht with rfl | ht'
        · exact le_of_lt (lt_of_le_of_lt
            (hmin s (List.mem_cons_self s rest)) hcmp)
        · exact hmin t ht'
      · intro j t hj hgt
        rw [hre]
        match j, hgt with
        | 0, hgt =>
          have hbt : b = t := by simpa using hgt
          subst hbt
          exact lt_of_le_of_lt (hmin s (List.mem_cons_self s rest)) hcmp
        | j' + 1, hgt =>
          exact hstrict j' t (by omega) (by simpa using hgt)
    · have hre : firstClosest target b (s :: rest) = firstClosest target b rest := by
        simp [firstClosest, hcmp]
      have hbs : distTo target b ≤ distTo target s := not_lt.mp hcmp
      obtain ⟨i, hget, hmin, hstrict⟩ := ih b
      have hminBig : ∀ t ∈ b :: s :: rest,
          distTo target (firstClosest target b (s :: rest)) ≤ distTo target t := by
        intro t ht
        rw [hre]
        rcases List.mem_cons.mp ht with rfl | ht'
        · exact hmin t (List.mem_cons_self t rest)
        · rcases List.mem_cons.mp ht' with rfl | ht''
          · exact le_trans (hmin b (List.mem_cons_self b rest)) hbs
          · exact hmin t (List.mem_cons_of_mem b ht'')
      match i, hget with
      | 0, hget =>
        have hres : firstClosest target b rest = b := by
          have : some b = some (firstClosest target b rest) := by simpa using hget
          exact (Option.some.inj this).symm
        refine ⟨0, ?_, hminBig, ?_⟩
        · rw [hre, hres]; rfl
        · intro j t hj
          omega
      | i' + 1, hget =>
        refine ⟨i' + 2, ?_, hminBig, ?_⟩
        · rw [hre]; simpa using hget
        · intro j t hj hgt
          rw [hre]
          match j, hgt with
          | 0, hgt =>
            have hbt : b = t := by simpa using hgt
            subst hbt
            exact hstrict 0 b (by omega) rfl
          | 1, hgt =>
            have hst : s = t := by simpa using hgt
            subst hst
            exact lt_of_lt_of_le (hstrict 0 b (by omega) rfl) hbs
          | j'' + 2, hgt =>
            exact hstrict (j'' + 1) t (by omega) (by simpa using hgt)

/-- The first match of `find?` has no earlier match. -/
theorem find?_first_index (p : StreamEntry → Bool) :
    ∀ (l : List StreamEntry) (a : StreamEntry), l.find? p = some a →
      ∃ i, l.get? i = some a ∧ p a = true ∧
        ∀ j b, j < i → l.get? j = some b → p b = false := by
  intro l
  induction l with
  | nil => intro a ha; simp [List.find?] at ha
  | cons x xs ih =>
    intro a ha
    by_cases hx : p x = true
    · have : a = x := by
        rw [List.find?_cons_of_pos _ hx] at ha
        exact (Option.some.inj ha).symm
      subst this
      exact ⟨0, rfl, hx, by omega⟩
    · have hx' : p x = false := by simpa using hx
      rw [List.find?_cons_of_neg _ (by simp [hx'])] at ha
      obtain ⟨i, hget, hpa, hearly⟩ := ih a ha
      refine ⟨i + 1, by simpa using hget, hpa, ?_⟩
      intro j b hj hgb
      match j, hgb with
      | 0, hgb =>
        have hxb : x = b := by simpa using hgb
        subst hxb; exact hx'
      | j' + 1, hgb =>
        exact hearly j' b (by omega) (by simpa using hgb)

/-- C6: on every nonempty playlist `get_quality` returns an entry of the
playlist that has minimal absolute distance to the target, every strictly
earlier playlist entry being strictly farther (so ties go to the first in
input order), and it is an exact match whenever one exists; in particular
the playlist with qualities 144, 360, 720, 1080 yields the 360 entry for
target 500. -/
theorem c6_get_quality_nearest (playlist : List StreamEntry) (target : Int)
    (h : playlist ≠ []) :
    (∃ s i, get_quality playlist target = some s ∧
      playlist.get? i = some s ∧
      (∀ t ∈ playlist, distTo target s ≤ distTo target t) ∧
      (∀ j t, j < i → playlist.get? j = some t →
        distTo target s < distTo target t) ∧
      ((∃ u ∈ playlist, u.quality = target) → s.quality = target)) ∧
    get_quality demoPlaylist 500 = some ⟨360, "640x360", "u360"⟩ := by
  constructor
  · match playlist, h with
    | p :: ps, _ =>
      cases hf : (p :: ps).find? (fun s => s.quality == target) with
      | some s =>
        obtain ⟨i, hget, hps, hearlier⟩ := find?_first_index _ _ _ hf
        have hs0 : distTo target s = 0 := by
          have hq : s.quality = target := by simpa using hps
          simp [distTo, hq]
        refine ⟨s, i, ?_, hget, ?_, ?_, ?_⟩
        · simp [get_quality, hf]
        · intro t ht
          rw [hs0]
          exact Nat.zero_le _
        · intro j t hj hgt
          have hne : t.quality ≠ target := by
            simpa using hearlier j t hj hgt
          have : 0 < distTo target t := by
            have : t.quality - target ≠ 0 := sub_ne_zero.mpr hne
            simpa [distTo] using Int.natAbs_pos.mpr this
          rw [hs0]
          exact this
        · intro _
          simpa using hps
      | none =>
        have heq : get_quality (p :: ps) target =
            some (firstClosest target p ps) := by
          simp [get_quality, hf, closestFold_cons]
        obtain ⟨i, hget, hmin, hstrict⟩ := firstClosest_spec target ps p
        refine ⟨firstClosest target p ps, i, heq, hget, hmin, hstrict, ?_⟩
        rintro ⟨u, hu, hq⟩
        have := List.find?_eq_none.mp hf u hu
        simp [hq] at this
  · decide

/-- C6 witness on the spec's quality set. -/
theorem c6_get_quality_nearest_witness :
    demoPlaylist ≠ [] ∧
    get_quality demoPlaylist 500 = some ⟨360, "640x360", "u360"⟩ :=
  ⟨by decide, (c6_get_quality_nearest demoPlaylist 500 (by decide)).2⟩

/-- C10 counterexample: when the primary curriculum fetch fails with a 503
error, `fetch_course_content` returns the fallback endpoint's raw payload
without the synthetic-chapter normalization, so a non-empty returned
curriculum can start with a lecture. -/
theorem c10_counterexample :
    fetch_course_content (.err "HTTP 503: Service Unavailable") [c10Lecture]
        idEnrich = .ok (some [c10Lecture]) ∧
    c10Lecture.cls ≠ "chapter" :=
  ⟨rfl, by decide⟩

/-- C10 amended: every non-None curriculum returned through the primary
(non-fallback) path of `fetch_course_content` is non-empty and has a chapter
as its first result — a synthetic `Chapter 1` node is inserted when the
upstream data does not start with one; the 503 fallback path returns the raw
fallback payload without this normalization. -/
theorem c10_primary_chapter_first (allResults fallback : List Node)
    (enrich : Node → Option Asset × List SuppAsset) (rs : List Node)
    (h : fetch_course_content (.ok allResults) fallback enrich
      = .ok (some rs)) :
    rs ≠ [] ∧ ∃ h0, rs.head? = some h0 ∧ h0.cls = "chapter" := by
  match allResults, h with
  | [], h => simp [fetch_course_content] at h
  | a :: rest, h =>
    rw [fetch_course_content] at h
    rw [if_neg (by simp)] at h
    simp only [List.head?, Except.ok.injEq, Option.some.injEq] at h
    by_cases hcls : a.cls = "chapter"
    · rw [if_neg (by simp [hcls])] at h
      subst h
      refine ⟨by simp, applyEnrichment enrich a, by simp, ?_⟩
      simp [applyEnrichment, hcls]
    · rw [if_pos hcls] at h
      subst h
      refine ⟨by simp, applyEnrichment enrich syntheticChapter, by simp, ?_⟩
      have : syntheticChapter.cls = "chapter" := rfl
      simp [applyEnrichment, syntheticChapter]

/-- C10 amended witness: a curriculum starting with a bare lecture gets the
synthetic chapter prepended on the primary path. -/
theorem c10_primary_chapter_first_witness :
    ([syntheticChapter, c10Lecture] : List Node) ≠ [] ∧
    ∃ h0, ([syntheticChapter, c10Lecture] : List Node).head? = some h0 ∧
      h0.cls = "chapter" :=
  c10_primary_chapter_first [c10Lecture] [] idEnrich
    [syntheticChapter, c10Lecture] rfl

/-- Lecture-like nodes never match the chapter branch. -/
theorem lectureLike_not_chapter (n : Node) (h : lectureLike n) :
    ¬ pyLower n.cls = "chapter" := by
  rcases h with h1 | h1 | h1 <;> rw [h1] <;> decide

/-- Past the range end nothing survives the filter. -/
theorem filter_out_of_range (dstart e : Int) :
    ∀ (l : List Node) (k : Nat), e < (k : Int) + 1 →
      (List.enumFrom k l).filter (fun p =>
        decide (dstart ≤ (p.1 + 1 : Int) ∧ (p.1 + 1 : Int) ≤ e)) = [] := by
  intro l
  induction l with
  | nil => intro k hk; rfl
  | cons n rest ih =>
    intro k hk
    have hnp : ¬ (dstart ≤ ((k : Int) + 1) ∧ ((k : Int) + 1) ≤ e) := by omega
    have htail := ih (k + 1) (by push_cast; omega)
    rw [List.enumFrom_cons, List.filter_cons, if_neg (by simp [hnp]), htail]

/-- Range-filtered planning from an established chapter: the emitted items
are exactly those of the nodes whose 1-based position (counted from offset
`k`) lies within `[download_start, download_end]`, each processed with its
original position. -/
theorem plan_loop_range (cfg : PlanConfig) (coursePath : String) (ch : Node)
    (henable : cfg.enable_range_download = true)
    (hend : 0 < cfg.download_end) :
    ∀ (nodes : List Node) (k : Nat), (∀ n ∈ nodes, lectureLike n) →
      plan_loop cfg coursePath (some ch) k nodes =
        (((List.enumFrom k nodes).filter (fun p =>
            decide (cfg.download_start ≤ (p.1 + 1 : Int) ∧
              (p.1 + 1 : Int) ≤ cfg.download_end))).map (fun p =>
          process_lecture_for_download cfg p.2
            (pathJoin coursePath (Utils_sanitize_filename ch.title))
            (p.1 + 1))).flatten := by
  intro nodes
  induction nodes with
  | nil => intro k _; rfl
  | cons n rest ih =>
    intro k hAll
    have hn : lectureLike n := hAll n (List.mem_cons_self n rest)
    have hrest : ∀ m ∈ rest, lectureLike m :=
      fun m hm => hAll m (List.mem_cons_of_mem n hm)
    have hnotch := lectureLike_not_chapter n hn
    have hn2 : pyLower n.cls = "lecture" ∨ pyLower n.cls = "quiz" ∨
        pyLower n.cls = "practice" := hn
    rw [List.enumFrom_cons]
    simp only [plan_loop]
    rw [if_neg hnotch, if_pos hn2]
    by_cases hlt : ((k + 1 : Nat) : Int) < cfg.download_start
    · rw [if_pos ⟨henable, hlt⟩]
      have hnp : ¬ (cfg.download_start ≤ ((k : Int) + 1) ∧
          ((k : Int) + 1) ≤ cfg.download_end) := by
        push_cast at hlt
        omega
      rw [ih (k + 1) hrest]
      simp [List.filter_cons, hnp]
    · by_cases hgt : cfg.download_end < ((k + 1 : Nat) : Int)
      · rw [if_neg (fun hc => hlt hc.2),
          if_pos ⟨henable, hend, hgt⟩]
        have hnp : ¬ (cfg.download_start ≤ ((k : Int) + 1) ∧
            ((k : Int) + 1) ≤ cfg.download_end) := by
          push_cast at hgt
          omega
        have htail := filter_out_of_range cfg.download_start cfg.download_end
          rest (k + 1) (by push_cast at hgt ⊢; omega)
        rw [List.filter_cons, if_neg (by simp [hnp]), htail]
        rfl
      · rw [if_neg (fun hc => hlt hc.2),
          if_neg (fun hc => hgt hc.2.2)]
        have hp : cfg.download_start ≤ ((k : Int) + 1) ∧
            ((k : Int) + 1) ≤ cfg.download_end := by
          push_cast at hlt hgt
          omega
        rw [ih (k + 1) hrest]
        simp [List.filter_cons, hp]

/-- Intended semantics of the range filter (the loop with `Utils` bound):
with range filtering enabled as `[download_start, download_end]` over a
chapter followed by lecture/quiz/practice nodes, the emitted items are
exactly those of the nodes whose 1-based sequence lies within the range,
and each in-range node is processed with its original sequence number —
positions 3, 4, 5 for range `[3, 5]`, not a renumbering. -/
theorem range_filter_original_numbering_intended (cfg : PlanConfig) (ch : Node)
    (nodes : List Node) (henable : cfg.enable_range_download = true)
    (hend : 0 < cfg.download_end) (hch : pyLower ch.cls = "chapter")
    (hAll : ∀ n ∈ nodes, lectureLike n) :
    prepare_download_items cfg (ch :: nodes) =
      ((nodes.enum.filter (fun p =>
          decide (cfg.download_start ≤ (p.1 + 1 : Int) ∧
            (p.1 + 1 : Int) ≤ cfg.download_end))).map (fun p =>
        process_lecture_for_download cfg p.2
          (pathJoin (pathJoin cfg.download_path
              (Utils_sanitize_filename cfg.course_title))
            (Utils_sanitize_filename ch.title))
          (p.1 + 1))).flatten := by
  unfold prepare_download_items
  simp only [plan_loop]
  rw [if_pos hch]
  exact plan_loop_range cfg _ ch henable hend nodes 0 hAll

/-- Intended semantics of the encrypted gate (the constructor with `Utils`
bound): for a lecture whose video stream sources all lie under
`/encrypted-files` and whose media license token is set, stream
normalization marks the result encrypted; the constructor then yields no
video item when the allow-encrypted preference is off, and yields a video
item marked encrypted when it is on (whenever the quality selection
resolves a non-empty source URL). -/
theorem encrypted_marking_and_exclusion_intended
    (resolver : String → Option (List StreamEntry)) (urls : List VideoSource)
    (tok : String) (st : Streams) (cfg : PlanConfig) (lecture0 : Node)
    (asset0 : Asset) (chapterPath : String) (sequence : Nat)
    (htok : tok ≠ "")
    (hurls : ∀ v ∈ urls, strContains v.url "/encrypted-files" = true)
    (hconv : convert_to_streams resolver urls (stream_is_encrypted tok)
      = .ok st)
    (hlec : lecture0.asset = some asset0) (hast : asset0.streams = some st) :
    st.isEncrypted = true ∧
    (cfg.prefs.continue_downloading_encrypted = false →
      create_video_download_item cfg lecture0 chapterPath sequence = none) ∧
    (cfg.prefs.continue_downloading_encrypted = true →
      ∀ info, resolved_source_info (some st) cfg.video_quality = some info →
        info.url ≠ "" →
        ∃ it, create_video_download_item cfg lecture0 chapterPath sequence
            = some it ∧ it.is_encrypted = true ∧ it.item_type = "video") := by
  have henc : stream_is_encrypted tok = true := by
    simp [stream_is_encrypted, htok]
  rw [henc] at hconv
  have hu : urls ≠ [] := by
    intro h0
    rw [convert_to_streams, if_pos h0] at hconv
    exact Except.noConfusion hconv
  have hstEnc : st.isEncrypted = true := by
    rw [convert_to_streams, if_neg hu] at hconv
    simp only [Except.ok.injEq] at hconv
    rw [← hconv]
    simp
  have hso : lecture0.asset.bind Asset.streams = some st := by
    rw [hlec]
    simpa using hast
  have opt_sources_some :
      (Option.map Streams.sources (some st)).getD [] = st.sources := rfl
  have opt_isEnc_some :
      (Option.map Streams.isEncrypted (some st)).getD false = st.isEncrypted :=
    rfl
  have opt_isNone_some : (some st).isNone = false := rfl
  refine ⟨hstEnc, ?_, ?_⟩
  · intro hdeny
    simp [create_video_download_item, hso, hstEnc, hdeny]
  · intro hallow info hres hurl
    have hres2 :
        (match select_source_quality (some st) st.sources cfg.video_quality with
          | none => none
          | some sqPy =>
            some ((dictGet st.sources
              (corrected_source_quality st.sources sqPy)).getD ⟨"", ""⟩)) =
          some info := hres
    cases hsel : select_source_quality (some st) st.sources cfg.video_quality with
    | none => rw [hsel] at hres2; exact Option.noConfusion hres2
    | some sqPy =>
      rw [hsel] at hres2
      have hinfo : info =
          (dictGet st.sources (corrected_source_quality st.sources sqPy)).getD
            ⟨"", ""⟩ :=
        (Option.some.inj hres2).symm
      have hsne : st.sources ≠ [] := by
        intro h0
        rw [hinfo, h0] at hurl
        simp [dictGet, corrected_source_quality] at hurl
      have hc : create_video_download_item cfg lecture0 chapterPath sequence =
          some
            { item_type := "video",
              filename := pathBasename ((get_sequence_name sequence
                cfg.total_items
                (Utils_sanitize_filename lecture0.title ++ ".mp4") ". "
                chapterPath cfg.prefs.seq_zero_left).fullPath),
              source_url := info.url,
              file_path := (get_sequence_name sequence cfg.total_items
                (Utils_sanitize_filename lecture0.title ++ ".mp4") ". "
                chapterPath cfg.prefs.seq_zero_left).fullPath,
              quality := corrected_source_quality st.sources sqPy,
              format := info.vtype,
              is_encrypted := st.isEncrypted } := by
        simp only [create_video_download_item, hso, opt_sources_some,
          opt_isEnc_some, opt_isNone_some, hsel]
        rw [if_neg (by simp [hallow]), if_neg hsne]
        rw [← hinfo, if_neg hurl]
      exact ⟨_, hc, hstEnc, rfl⟩

/-- The operative video constructor returns `None` on every input: each
branch either returns `None` directly or raises the `NameError` that the
`except` at tasks.py line 988 converts to `None`. -/
theorem create_video_operative_none (cfg : PlanConfig) (lecture : Node)
    (chapterPath : String) (sequence : Nat) :
    create_video_download_item_operative cfg lecture chapterPath sequence
      = none := by
  simp only [create_video_download_item_operative]
  split
  · rfl
  · split
    · rfl
    · split
      · rfl
      · split
        · rfl
        · rfl

/-- C4 (code bug): tasks.py line 22 comments out the only `Utils` import
and nothing else binds the name, so the operative `prepare_download_items`
evaluates `Utils.sanitize_filename` at line 809 on an unbound name and
raises `NameError` before its loop can run — no call ever emits items, so
in particular no in-range items with original numbering.  The claim states
the loop's evident intent, which holds verbatim once `Utils` is bound to
the repo's apps/core/services/utils.py: at the failing input (ten quiz
nodes under one chapter, range `[3, 5]` enabled) exactly the nodes with
sequence 3, 4, 5 produce items, numbered by their original positions. -/
theorem c4_name_error_blocks_range_filter :
    (∀ (cfg : PlanConfig) (results : List Node) (items : List PlanItem),
      prepare_download_items_operative cfg results ≠ Except.ok items) ∧
    prepare_download_items_operative c4Cfg (c4Chapter :: c4Nodes) =
      Except.error "NameError: name 'Utils' is not defined" ∧
    prepare_download_items c4Cfg (c4Chapter :: c4Nodes) =
      ((c4Nodes.enum.filter (fun p =>
          decide (c4Cfg.download_start ≤ (p.1 + 1 : Int) ∧
            (p.1 + 1 : Int) ≤ c4Cfg.download_end))).map (fun p =>
        process_lecture_for_download c4Cfg p.2
          (pathJoin (pathJoin c4Cfg.download_path
              (Utils_sanitize_filename c4Cfg.course_title))
            (Utils_sanitize_filename c4Chapter.title))
          (p.1 + 1))).flatten := by
  refine ⟨?_, rfl, ?_⟩
  · intro cfg results items h
    exact Except.noConfusion h
  · exact range_filter_original_numbering_intended c4Cfg c4Chapter c4Nodes
      (by decide) (by decide) (by decide) (by decide)

/-- C5 (code bug): stream normalization does mark the token-gated,
`/encrypted-files`-only streams encrypted, and the preference-off gate does
suppress the video item — but the emitting branch can never run: with
`Utils` unbound in tasks.py, `Utils.get_closest_value` (line 952) or
`Utils.sanitize_filename` (line 966) raises `NameError` inside the `try`
and the `except` at line 988 returns `None`, so the operative constructor
returns `None` on every input, even with the allow-encrypted preference on.
With `Utils` bound to the repo's utils.py the same code emits the
encrypted-marked video item at the failing input, which is the claim's
evident intent. -/
theorem c5_name_error_blocks_encrypted_emission :
    convert_to_streams c5Resolver c5Urls (stream_is_encrypted "tok")
        = Except.ok c5Streams ∧
    c5Streams.isEncrypted = true ∧
    create_video_download_item_operative (c5Cfg false) c5Lecture "cp" 1
      = none ∧
    create_video_download_item_operative (c5Cfg true) c5Lecture "cp" 1
      = none ∧
    (∀ (cfg : PlanConfig) (lecture : Node) (chapterPath : String)
        (sequence : Nat),
      create_video_download_item_operative cfg lecture chapterPath sequence
        = none) ∧
    (∃ it, create_video_download_item (c5Cfg true) c5Lecture "cp" 1 = some it ∧
      it.is_encrypted = true ∧ it.item_type = "video") := by
  refine ⟨rfl, by decide, create_video_operative_none _ _ _ _,
    create_video_operative_none _ _ _ _, create_video_operative_none, ?_⟩
  have hallow := encrypted_marking_and_exclusion_intended c5Resolver c5Urls
    "tok" c5Streams (c5Cfg true) c5Lecture c5Asset "cp" 1 (by decide)
    (by decide) rfl rfl rfl
  exact hallow.2.2 rfl ⟨"video/mp4", "https://h/encrypted-files/a.mp4"⟩
    (by decide) (by decide)

end Free2Fetch
